import Mathlib

set_option maxRecDepth 100000

/-!
Shallow embedding of the chunk-validity and metadata-extraction heuristic of
validate_enhanced_filtering.py: the functions test_is_valid_product_chunk,
test_extract_product_name and test_extract_product_metadata, together with
theorems settling the frozen claims about them.

Strings are modelled as lists of characters (one element per Unicode code
point, matching Python where len and slicing count code points).  Python
str.lower, str.isupper, str.split and the regex character classes are modelled
on the ASCII and Latin-1 repertoire, which covers every character occurring in
the script and its sample data; characters outside that repertoire are treated
as uncased non-word characters.
-/

/-- ASCII uppercase letter, the regex class [A-Z]. -/
def isUpperAZ (c : Char) : Bool := 'A' ≤ c && c ≤ 'Z'

/-- ASCII lowercase letter, the regex class [a-z]. -/
def isLowerAZ (c : Char) : Bool := 'a' ≤ c && c ≤ 'z'

/-- ASCII digit, the regex class backslash-d. -/
def isDigit09 (c : Char) : Bool := '0' ≤ c && c ≤ '9'

/-- Latin-1 uppercase letter (À–Þ except the multiplication sign ×). -/
def isUpperL1 (c : Char) : Bool := ('À' ≤ c && c ≤ 'Þ') && !(c == '×')

/-- Latin-1 lowercase letter (ß–ÿ except the division sign ÷). -/
def isLowerL1 (c : Char) : Bool := ('ß' ≤ c && c ≤ 'ÿ') && !(c == '÷')

/-- Python str.lower on one character, for the ASCII and Latin-1 repertoire. -/
def pyLowerChar (c : Char) : Char :=
  if isUpperAZ c || isUpperL1 c then Char.ofNat (c.toNat + 32) else c

/-- Python whitespace (the regex class backslash-s): space, tab, newline,
carriage return, vertical tab, form feed. -/
def pyIsSpace (c : Char) : Bool :=
  c == ' ' || c == '\t' || c == '\n' || c == '\r' ||
  c == Char.ofNat 11 || c == Char.ofNat 12

/-- Python word character (the regex class backslash-w): letters, digits and
underscore, on the modelled repertoire. -/
def isWordChar (c : Char) : Bool :=
  isUpperAZ c || isLowerAZ c || isDigit09 c || c == '_' || isUpperL1 c || isLowerL1 c

/-- Python str.lower on a whole string. -/
def lowerL (l : List Char) : List Char := l.map pyLowerChar

/-- Boolean test that the first list is a prefix of the second. -/
def listPrefixB : List Char → List Char → Bool
  | [], _ => true
  | _ :: _, [] => false
  | a :: as, b :: bs => a == b && listPrefixB as bs

/-- Boolean test that the first list occurs as a contiguous sublist of the
second: the Python substring operator needle in hay. -/
def listContainsB (needle : List Char) : List Char → Bool
  | [] => needle.isEmpty
  | c :: cs => listPrefixB needle (c :: cs) || listContainsB needle cs

/-- Python needle in hay on strings. -/
def containsSub (hay needle : String) : Bool := listContainsB needle.data hay.data

/-- Helper for pySplitWS: accumulates the current word in reverse. -/
def splitWSAux : List Char → List Char → List (List Char)
  | [], acc => if acc.isEmpty then [] else [acc.reverse]
  | c :: cs, acc =>
    if pyIsSpace c then
      if acc.isEmpty then splitWSAux cs [] else acc.reverse :: splitWSAux cs []
    else splitWSAux cs (c :: acc)

/-- Python content.split() with no argument: split on whitespace runs,
discarding empty words. -/
def pySplitWS (l : List Char) : List (List Char) := splitWSAux l []

/-- Helper for pySplitNl: accumulates the current line in reverse. -/
def splitNlAux : List Char → List Char → List (List Char)
  | [], acc => [acc.reverse]
  | c :: cs, acc =>
    if c == '\n' then acc.reverse :: splitNlAux cs [] else splitNlAux cs (c :: acc)

/-- Python content.split of a newline separator: keeps empty lines. -/
def pySplitNl (l : List Char) : List (List Char) := splitNlAux l []

/-- Python str.strip(): remove leading and trailing whitespace. -/
def pyStrip (l : List Char) : List Char :=
  ((l.dropWhile pyIsSpace).reverse.dropWhile pyIsSpace).reverse

/-- Python str.isupper: at least one cased character, and no cased character
is lowercase. -/
def pyIsUpperWord (w : List Char) : Bool :=
  w.any (fun c => isUpperAZ c || isLowerAZ c || isUpperL1 c || isLowerL1 c) &&
  w.all (fun c => !(isLowerAZ c || isLowerL1 c))

/-! ## The validator test_is_valid_product_chunk

The Python function computes content_lower = content.lower() once and then
performs a sequence of keyword tests; since all operations are pure, the
lowered text is recomputed here inside each named trigger, which is equal. -/

/-- Index and table-of-contents keywords of the validator. -/
def indexKeywords : List (List Char) :=
  ["table of contents".data, "index".data, "contents".data, "signature book".data]

/-- Sustainability keywords of the validator. -/
def sustainKeywords : List (List Char) :=
  ["sustainability".data, "environmental".data, "sostenibilidad".data,
   "medioambiental".data]

/-- Certification keywords of the validator. -/
def certificationKeywords : List (List Char) :=
  ["quality certifications".data, "sustainability certifications".data,
   "certificados".data, "iso 9001".data, "iso 14001".data]

/-- Product-signal keywords that rescue sustainability or certification
content. -/
def productSignalKeywords : List (List Char) :=
  ["dimensions".data, "designer".data, "collection".data, "×".data,
   "cm".data, "mm".data]

/-- Product-context keywords of the third indicator. -/
def contextKeywords : List (List Char) :=
  ["designer".data, "collection".data, "material".data, "ceramic".data,
   "porcelain".data, "tile".data, "estudi\x7bh\x7dac".data, "dsignio".data,
   "alt design".data, "mut".data, "yonoh".data, "stacy garcia".data]

/-- Dimension-like substrings of the second indicator, looked up in the
original (not lowered) content. -/
def dimSubstrings : List (List Char) := ["×".data, "x ".data, "cm".data, "mm".data]

/-- First exclusion: the lowered content contains an index keyword. -/
def indexTrigger (content : String) : Bool :=
  indexKeywords.any (fun kw => listContainsB kw (lowerL content.data))

/-- Second exclusion: a sustainability keyword occurs and no product-signal
keyword occurs. -/
def sustainTrigger (content : String) : Bool :=
  sustainKeywords.any (fun kw => listContainsB kw (lowerL content.data)) &&
  !(productSignalKeywords.any (fun kw => listContainsB kw (lowerL content.data)))

/-- Third exclusion: a certification keyword occurs and no product-signal
keyword occurs. -/
def certTrigger (content : String) : Bool :=
  certificationKeywords.any (fun kw => listContainsB kw (lowerL content.data)) &&
  !(productSignalKeywords.any (fun kw => listContainsB kw (lowerL content.data)))

/-- Indicator (a): some whitespace-delimited word is fully uppercase and
longer than 2 characters. -/
def hasUppercaseName (content : String) : Bool :=
  (pySplitWS content.data).any (fun w => pyIsUpperWord w && decide (2 < w.length))

/-- Indicator (b): the content contains a dimension-like substring. -/
def hasDimensionSub (content : String) : Bool :=
  dimSubstrings.any (fun p => listContainsB p content.data)

/-- Indicator (c): the lowered content contains a product-context keyword. -/
def hasProductContext (content : String) : Bool :=
  contextKeywords.any (fun kw => listContainsB kw (lowerL content.data))

/-- Number of the three indicators that hold. -/
def productScore (content : String) : Nat :=
  (cond (hasUppercaseName content) 1 0) + (cond (hasDimensionSub content) 1 0) +
  (cond (hasProductContext content) 1 0)

/-- The validator: embedding of test_is_valid_product_chunk. -/
def test_is_valid_product_chunk (content : String) : Bool :=
  if content.length < 100 then false
  else if indexTrigger content then false
  else if sustainTrigger content then false
  else if certTrigger content then false
  else decide (2 ≤ productScore content)

/-! ## The name extractor test_extract_product_name

The Python function iterates over the first 10 lines of content.split of a
newline.  On each line (stripped) it first tries the anchored regex
matching a whole line of uppercase tokens, then searches for an embedded
uppercase-token run with a 3-line look-ahead context window; the window
start is computed with lines.index on the stripped line, which raises
ValueError when the stripped line is not an element of the original line
list.  The possible ValueError is modelled with Except. -/

/-- Language of the anchored standalone regex: one or more tokens of at
least 2 uppercase ASCII letters, separated by whitespace runs, spanning the
whole line.  Since the uppercase and whitespace character classes are
disjoint, the regex accepts a line exactly when the line is nonempty,
consists only of uppercase letters and whitespace, begins and ends with an
uppercase letter, and every maximal uppercase run has length at least 2. -/
def matchStandalone (l : List Char) : Bool :=
  !l.isEmpty &&
  l.all (fun c => isUpperAZ c || pyIsSpace c) &&
  isUpperAZ (l.headD ' ') &&
  isUpperAZ (l.getLastD ' ') &&
  (pySplitWS l).all (fun t => decide (2 ≤ t.length))

/-- The standalone branch condition of the loop body: the stripped line
matches the anchored regex and is at most 20 characters long. -/
def stdHit (line : List Char) : Bool :=
  matchStandalone (pyStrip line) && decide ((pyStrip line).length ≤ 20)

/-- Tail of the embedded-run regex after a tentatively accepted uppercase
run: zero or more further iterations of whitespace-then-run, each run of at
least 3 uppercase letters, followed by a word boundary.  Returns the extra
matched characters, or none when the boundary directly after the current run
fails (next character is a word character) and the regex engine must drop
the current run.  Greedy matching with backtracking of the Python engine:
an extension run whose own tail fails is dropped, leaving the boundary at
the whitespace.  The fuel argument only ensures termination; it is called
with the length of the remaining input, which each step strictly exceeds
the input consumed per unit of fuel. -/
def upperTail : Nat → List Char → Option (List Char)
  | _, [] => some []
  | 0, _ :: _ => none
  | fuel + 1, d :: ds =>
    if isWordChar d then none
    else if pyIsSpace d then
      let ws := (d :: ds).takeWhile pyIsSpace
      let rest1 := (d :: ds).dropWhile pyIsSpace
      let run2 := rest1.takeWhile isUpperAZ
      let rest2 := rest1.dropWhile isUpperAZ
      if 3 ≤ run2.length then
        match upperTail fuel rest2 with
        | some extra => some (ws ++ run2 ++ extra)
        | none => some []
      else some []
    else some []

/-- Scanner of the embedded-run regex search: tries each position left to
right the way the engine does, tracking the previous character for the
leading word-boundary test; a position qualifies when its character is
uppercase, the previous character is absent or not a word character, and the
maximal uppercase run there has length at least 3. -/
def searchUpperAux : Option Char → List Char → Option (List Char)
  | _, [] => none
  | prev, c :: cs =>
    if isUpperAZ c && (match prev with | none => true | some p => !isWordChar p) then
      let run := (c :: cs).takeWhile isUpperAZ
      let rest := (c :: cs).dropWhile isUpperAZ
      if 3 ≤ run.length then
        match upperTail rest.length rest with
        | some extra => some (run ++ extra)
        | none => searchUpperAux (some c) cs
      else searchUpperAux (some c) cs
    else searchUpperAux (some c) cs

/-- Group 1 of the first match of the embedded-run regex search on a line. -/
def searchUpperGroup (l : List Char) : Option (List Char) := searchUpperAux none l

/-- Context patterns checked in the lowered 3-line window. -/
def nameContextPatterns : List (List Char) :=
  ["×".data, "cm".data, "mm".data, "designer".data, "estudi".data,
   "dsignio".data, "yonoh".data]

/-- Python backslash-n .join of a list of lines. -/
def joinNl : List (List Char) → List Char
  | [] => []
  | [l] => l
  | l :: ls => l ++ '\n' :: joinNl ls

/-- Python lines.index as an option: index of the first occurrence. -/
def findLineIdx (lines : List (List Char)) (l : List Char) : Option Nat :=
  lines.findIdx? (fun x => x == l)

/-- Context check of the embedded branch: some context pattern occurs in the
lowered join of the 3-line window starting at line j. -/
def ctxHit (lines : List (List Char)) (j : Nat) : Bool :=
  nameContextPatterns.any (fun p => listContainsB p (lowerL (joinNl ((lines.drop j).take 3))))

/-- The loop of test_extract_product_name over the (at most 10) scanned
lines; the first argument is the full line list used by lines.index and the
window slice. -/
def namePass (lines : List (List Char)) : List (List Char) → Except Unit (Option (List Char))
  | [] => Except.ok none
  | line :: rest =>
    if stdHit line then Except.ok (some (pyStrip (pyStrip line)))
    else
      match searchUpperGroup (pyStrip line) with
      | some g =>
        match findLineIdx lines (pyStrip line) with
        | none => Except.error ()
        | some j =>
          if ctxHit lines j then Except.ok (some (pyStrip g))
          else namePass lines rest
      | none => namePass lines rest

/-- The name extractor: embedding of test_extract_product_name.  The error
value models the ValueError that lines.index raises when the stripped line
is absent from the line list. -/
def test_extract_product_name (content : String) : Except Unit (Option String) :=
  match namePass (pySplitNl content.data) ((pySplitNl content.data).take 10) with
  | Except.error e => Except.error e
  | Except.ok none => Except.ok none
  | Except.ok (some l) => Except.ok (some (String.mk l))

/-! ## The metadata extractor test_extract_product_metadata -/

/-- Result record: a Python dict with three optional keys. -/
structure ProductMetadata where
  dimensions : Option String
  designer : Option String
  colors : Option (List String)

/-- Attempt of the dimension regex at one position.  The two digit groups
are deterministic: each backslash-d-plus takes the maximal digit run
(shorter choices leave a digit where a non-digit class follows and always
fail), the optional comma part is tried greedily first, and the trailing
whitespace and optional unit always succeed and are not part of any group,
so they are not parsed. -/
def dimAt (l : List Char) : Option (List Char × List Char) :=
  let d1 := l.takeWhile isDigit09
  let r1 := l.dropWhile isDigit09
  if d1.isEmpty then none
  else
    let tryRest : List Char → Option (List Char) := fun r =>
      let r2 := r.dropWhile pyIsSpace
      match r2 with
      | c :: r3 =>
        if c == '×' || c == 'x' then
          let r4 := r3.dropWhile pyIsSpace
          let d2 := r4.takeWhile isDigit09
          if d2.isEmpty then none
          else
            match r4.dropWhile isDigit09 with
            | ',' :: r5 =>
              let d2b := r5.takeWhile isDigit09
              if d2b.isEmpty then some d2 else some (d2 ++ ',' :: d2b)
            | _ => some d2
        else none
      | [] => none
    let withOpt : Option (List Char × List Char) :=
      match r1 with
      | ',' :: r2 =>
        let d1b := r2.takeWhile isDigit09
        if d1b.isEmpty then none
        else some (d1 ++ ',' :: d1b, r2.dropWhile isDigit09)
      | _ => none
    match withOpt with
    | some (g1, r) =>
      match tryRest r with
      | some g2 => some (g1, g2)
      | none =>
        match tryRest r1 with
        | some g2 => some (d1, g2)
        | none => none
    | none =>
      match tryRest r1 with
      | some g2 => some (d1, g2)
      | none => none

/-- Groups of the first match of the dimension regex: leftmost position
wins. -/
def findDim : List Char → Option (List Char × List Char)
  | [] => none
  | c :: cs =>
    match dimAt (c :: cs) with
    | some r => some r
    | none => findDim cs

/-- Character class of the designer pattern: [A-Za-z whitespace braces hyphen]. -/
def designerClassChar (c : Char) : Bool :=
  isUpperAZ c || isLowerAZ c || pyIsSpace c || c == Char.ofNat 123 ||
  c == Char.ofNat 125 || c == '-'

/-- Attempt of the first designer pattern at one position: the literal by or
BY, then at least one whitespace character, then group 1, an uppercase
letter followed greedily by at least one character of the class. -/
def byAt (l : List Char) : Option (List Char) :=
  match l with
  | b :: y :: rest =>
    if (b == 'b' && y == 'y') || (b == 'B' && y == 'Y') then
      if (rest.takeWhile pyIsSpace).isEmpty then none
      else
        match rest.dropWhile pyIsSpace with
        | c :: r2 =>
          if isUpperAZ c then
            let body := r2.takeWhile designerClassChar
            if body.isEmpty then none else some (c :: body)
          else none
        | [] => none
    else none
  | _ => none

/-- Group of the first match of the first designer pattern. -/
def findByGroup : List Char → Option (List Char)
  | [] => none
  | c :: cs =>
    match byAt (c :: cs) with
    | some g => some g
    | none => findByGroup cs

/-- Alternatives of the second designer pattern, in alternation order. -/
def designerAllowNames : List (List Char) :=
  ["ESTUDI\x7bH\x7dAC".data, "DSIGNIO".data, "ALT DESIGN".data, "MUT".data,
   "YONOH".data, "Stacy Garcia NY".data]

/-- Attempt of the second designer pattern at one position: first literal of
the alternation that is a prefix of the remaining text. -/
def allowAt (l : List Char) : Option (List Char) :=
  designerAllowNames.findSome? (fun w => if listPrefixB w l then some w else none)

/-- Group of the first match of the second designer pattern. -/
def findAllowGroup : List Char → Option (List Char)
  | [] => none
  | c :: cs =>
    match allowAt (c :: cs) with
    | some g => some g
    | none => findAllowGroup cs

/-- The designer loop: tries the by-pattern, then the allowlist pattern; a
pattern whose first match strips to length at most 2 does not set the field
and does not stop the loop. -/
def extractDesigner (l : List Char) : Option (List Char) :=
  match findByGroup l with
  | some g =>
    if 2 < (pyStrip g).length then some (pyStrip g)
    else
      match findAllowGroup l with
      | some g2 => if 2 < (pyStrip g2).length then some (pyStrip g2) else none
      | none => none
  | none =>
    match findAllowGroup l with
    | some g2 => if 2 < (pyStrip g2).length then some (pyStrip g2) else none
    | none => none

/-- Alternatives of the color pattern, in alternation order. -/
def colorNames : List (List Char) :=
  ["TAUPE".data, "SAND".data, "CLAY".data, "WHITE".data, "BLACK".data,
   "GREY".data, "GRAY".data, "ANTHRACITE".data, "BEIGE".data, "BROWN".data,
   "MINT".data, "NAVY".data, "BORDEAUX".data]

/-- Attempt of the color pattern at one position: the previous character
must not be a word character (leading boundary), some color literal must be
a prefix of the remaining text, and the character after it must not be a
word character (trailing boundary).  Returns the literal and the rest. -/
def colorAt (prev : Option Char) (l : List Char) : Option (List Char × List Char) :=
  if (match prev with | none => true | some p => !isWordChar p) then
    colorNames.findSome? (fun w =>
      if listPrefixB w l then
        match l.drop w.length with
        | [] => some (w, ([] : List Char))
        | c :: cs => if isWordChar c then none else some (w, c :: cs)
      else none)
  else none

/-- Non-overlapping left-to-right scan of re.findall for the color pattern.
The fuel argument only ensures termination and is called with the input
length, which bounds the number of scan steps. -/
def colorScanF : Nat → Option Char → List Char → List (List Char)
  | 0, _, _ => []
  | _ + 1, _, [] => []
  | fuel + 1, prev, c :: cs =>
    match colorAt prev (c :: cs) with
    | some (w, rest) => w :: colorScanF fuel (some (w.getLastD ' ')) rest
    | none => colorScanF fuel (some c) cs

/-- All color matches of re.findall, in text order. -/
def findallColors (l : List Char) : List (List Char) := colorScanF l.length none l

/-- The metadata extractor: embedding of test_extract_product_metadata.
Python builds the colors value as list of set of the match list, whose
iteration order is unspecified; it is modelled as the deduplicated match
list, and the theorems about colors only use membership and distinctness. -/
def test_extract_product_metadata (content : String) : ProductMetadata :=
  { dimensions := (findDim content.data).map (fun p => String.mk (p.1 ++ '×' :: p.2))
    designer := (extractDesigner content.data).map String.mk
    colors :=
      if (findallColors content.data).isEmpty then none
      else some (((findallColors content.data).map String.mk).dedup) }

/-! ## Sample chunks from the validation script -/

/-- Chunk 4 of the test data: the multi-SKU VALENOVA text. -/
def valenovaChunk : String :=
  "39661  VALENOVA TAUPE LT/11,8X11,8\nQ59 (11,8x11,8 cm − 4[5/8]x4[5/8]\")\n\n12 patterns · ** 43 Kerakoll\n\n\n39660  VALENOVA SAND LT/11,8X11,8\nQ59 (11,8x11,8 cm − 4[5/8]x4[5/8]\")\n\n\n39659  VALENOVA CLAY LT/11,8X11,8\nQ59 (11,8x11,8 cm − 4[5/8]x4[5/8]\")\n\n12 patterns · ** 43 Kerakoll\n\n\n39658  VALENOVA WHITE LT/11,8X11,8\nQ59 (11,8x11,8 cm − 4[5/8]x4[5/8]\")\n\n12 patterns · ** 1 Kerakoll\n\nby Stacy Garcia NY"

/-- Chunk 5 of the test data: the PIQUÉ text. -/
def piqueChunk : String :=
  "-----\n\nPIQUÉ\nby Estudi\x7bH\x7dac\n\n\nPIQUÉ, a new collection for HARMONY by José Manuel Ferrero from design studio estudi\x7bH\x7dac, is\ninspired by an 18th century mechanized technique for weaving double cloth with a raised pattern.\nThe collection features ceramic tiles with a distinctive textured surface that mimics the piqué fabric technique."

/-! ## Claim theorems -/

/-- Claim C1 (code_bug evidence): on the VALENOVA chunk the validator
returns true and the metadata extractor returns dimensions 11,8×11,8,
designer Stacy Garcia NY and colors containing TAUPE, as the claim states,
but the name extractor returns VALENOVA TAUPE, not VALENOVA as the claim
and the expected_name field of the test data state: the capture group of
the embedded-run regex greedily swallows the following color token. -/
theorem C1_code_eval :
    test_is_valid_product_chunk valenovaChunk = true ∧
    test_extract_product_name valenovaChunk = Except.ok (some "VALENOVA TAUPE") ∧
    (test_extract_product_metadata valenovaChunk).dimensions = some "11,8×11,8" ∧
    (test_extract_product_metadata valenovaChunk).designer = some "Stacy Garcia NY" ∧
    (test_extract_product_metadata valenovaChunk).colors = some ["TAUPE", "SAND", "CLAY", "WHITE"] :=
  ⟨by decide, rfl, by decide, by decide, by decide⟩

/-- Claim C2 (code_bug evidence): the name extractor is not total.  On the
input consisting of a space, ABC, a space and cm, the loop strips the line,
finds the embedded candidate ABC, and then calls lines.index with the
stripped line, which is absent from the line list, raising ValueError. -/
theorem C2_code_eval : test_extract_product_name " ABC cm" = Except.error () := rfl

/-- Claim C3 (code_bug evidence): on the PIQUÉ chunk the name extractor
returns HARMONY, not PIQUÉ (the letter É is outside the ASCII class [A-Z],
so the PIQUÉ line fails both name rules and the later HARMONY occurrence
wins), and the metadata extractor returns the designer string
Estudi-brace-H-brace-ac followed by three newlines and PIQU, not
Estudi-brace-H-brace-ac (the greedy character class of the by-pattern
crosses newlines). -/
theorem C3_code_eval :
    test_extract_product_name piqueChunk = Except.ok (some "HARMONY") ∧
    (test_extract_product_metadata piqueChunk).designer =
      some "Estudi\x7bH\x7dac\n\n\nPIQU" :=
  ⟨rfl, by decide⟩

/-- Claim C9: the two separator spellings of 20 by 20 centimetres normalize
to the same dimensions value, with the separator rewritten to × and the
unit dropped. -/
theorem C9_dim_normalization :
    (test_extract_product_metadata "20x20 cm").dimensions = some "20×20" ∧
    (test_extract_product_metadata "20×20 cm").dimensions = some "20×20" :=
  ⟨by decide, by decide⟩

/-- Claim C5: every string shorter than 100 characters is rejected by the
validator, regardless of content. -/
theorem C5_short_rejected (s : String) (h : s.length < 100) :
    test_is_valid_product_chunk s = false := by
  simp [test_is_valid_product_chunk, h]

/-- Witness for C5 at the concrete input hi. -/
theorem C5_short_rejected_witness :
    ("hi" : String).length < 100 ∧ test_is_valid_product_chunk "hi" = false :=
  ⟨by decide, C5_short_rejected "hi" (by decide)⟩

/-- Claim C6: every string whose lowered form contains one of the four
index keywords (as a plain substring, so also inside longer words) is
rejected by the validator regardless of other content: either the length
rule or the index rule rejects it first. -/
theorem C6_index_rejected (s : String) (h : indexTrigger s = true) :
    test_is_valid_product_chunk s = false := by
  by_cases hl : s.length < 100 <;> simp [test_is_valid_product_chunk, hl, h]

/-- A long chunk containing the word indexed together with strong product
signals. -/
def indexedSample : String :=
  "indexed VALENOVA ceramic tile designer 20x20 cm zzzzzzzzzzzzzzzzzzzzzzzzzzzzzzzzzzzzzzzzzzzzzzzzzzzzzzzzzzzz"

/-- Witness for C6 at a concrete long input with product signals. -/
theorem C6_index_rejected_witness :
    indexTrigger indexedSample = true ∧
    test_is_valid_product_chunk indexedSample = false :=
  ⟨by decide, C6_index_rejected indexedSample (by decide)⟩

/-- Claim C4: for a string of length at least 100 that triggers none of the
three exclusion rules, the validator accepts exactly when at least 2 of the
3 indicators (uppercase word, dimension-like substring, product-context
keyword) hold; productScore counts exactly those indicators. -/
theorem C4_two_of_three (s : String) (h1 : ¬ s.length < 100)
    (h2 : indexTrigger s = false) (h3 : sustainTrigger s = false)
    (h4 : certTrigger s = false) :
    (test_is_valid_product_chunk s = true ↔ 2 ≤ productScore s) := by
  simp [test_is_valid_product_chunk, h1, h2, h3, h4]

/-- A long chunk with two of the three indicators and no exclusion
keyword. -/
def plainProductSample : String :=
  "VALENOVA ceramic tile 20x20 cm zzzzzzzzzzzzzzzzzzzzzzzzzzzzzzzzzzzzzzzzzzzzzzzzzzzzzzzzzzzzzzzzzzzzzz"

/-- Witness for C4 at a concrete long input triggering no exclusion. -/
theorem C4_two_of_three_witness :
    ¬ plainProductSample.length < 100 ∧ indexTrigger plainProductSample = false ∧
    sustainTrigger plainProductSample = false ∧ certTrigger plainProductSample = false ∧
    (test_is_valid_product_chunk plainProductSample = true ↔ 2 ≤ productScore plainProductSample) :=
  ⟨by decide, by decide, by decide, by decide,
   C4_two_of_three plainProductSample (by decide) (by decide) (by decide) (by decide)⟩

/-- Mapping a function over both lists preserves the prefix test. -/
theorem listPrefixB_map (f : Char → Char) (n : List Char) :
    ∀ l : List Char, listPrefixB n l = true → listPrefixB (n.map f) (l.map f) = true := by
  induction n with
  | nil => intro l _; rfl
  | cons a as ih =>
    intro l h
    cases l with
    | nil => exact absurd h (by simp [listPrefixB])
    | cons b bs =>
      simp only [listPrefixB, Bool.and_eq_true, beq_iff_eq, List.map_cons] at h ⊢
      exact ⟨by rw [h.1], ih bs h.2⟩

/-- Mapping a function over both lists preserves the containment test. -/
theorem listContainsB_map (f : Char → Char) (n : List Char) :
    ∀ l : List Char, listContainsB n l = true → listContainsB (n.map f) (l.map f) = true := by
  intro l
  induction l with
  | nil =>
    intro h
    cases n with
    | nil => rfl
    | cons a as => exact absurd h (by simp [listContainsB])
  | cons c cs ih =>
    intro h
    simp only [listContainsB, Bool.or_eq_true, List.map_cons] at h ⊢
    cases h with
    | inl h => exact Or.inl (listPrefixB_map f n _ h)
    | inr h => exact Or.inr (ih h)

/-- A keyword fixed by lowering that occurs in a string also occurs in the
lowered string. -/
theorem containsSub_lower (s kw : String) (hkw : lowerL kw.data = kw.data)
    (h : containsSub s kw = true) :
    listContainsB kw.data (lowerL s.data) = true := by
  have h2 := listContainsB_map pyLowerChar kw.data s.data h
  simp only [lowerL] at hkw ⊢
  rwa [hkw] at h2

/-- Claim C7 (counterexample): the string consisting of the three words
sustainability, designer and cm contains all three required words but is
shorter than 100 characters, so the validator returns false, refuting the
claim as stated. -/
theorem C7_counterexample :
    containsSub "sustainability designer cm" "sustainability" = true ∧
    containsSub "sustainability designer cm" "designer" = true ∧
    containsSub "sustainability designer cm" "cm" = true ∧
    test_is_valid_product_chunk "sustainability designer cm" = false :=
  ⟨by decide, by decide, by decide, by decide⟩

/-- Claim C7 (amended): every string of length at least 100 that contains
sustainability, designer and cm and does not contain any index keyword is
accepted by the validator: the product-signal word designer neutralizes the
sustainability and certification exclusions, and the cm and designer
indicators already give a product score of at least 2. -/
theorem C7_amended_accepts (s : String) (h1 : ¬ s.length < 100)
    (h2 : indexTrigger s = false)
    (_hsus : containsSub s "sustainability" = true)
    (hdes : containsSub s "designer" = true)
    (hcm : containsSub s "cm" = true) :
    test_is_valid_product_chunk s = true := by
  have hdesl : listContainsB "designer".data (lowerL s.data) = true :=
    containsSub_lower s "designer" (by decide) hdes
  have hsig : productSignalKeywords.any (fun kw => listContainsB kw (lowerL s.data)) = true :=
    List.any_eq_true.mpr ⟨"designer".data, by decide, hdesl⟩
  have hsust : sustainTrigger s = false := by
    simp only [sustainTrigger, hsig, Bool.not_true, Bool.and_false]
  have hcert : certTrigger s = false := by
    simp only [certTrigger, hsig, Bool.not_true, Bool.and_false]
  have hdim : hasDimensionSub s = true :=
    List.any_eq_true.mpr ⟨"cm".data, by decide, hcm⟩
  have hctx : hasProductContext s = true :=
    List.any_eq_true.mpr ⟨"designer".data, by decide, hdesl⟩
  have hscore : 2 ≤ productScore s := by
    unfold productScore
    rw [hdim, hctx]
    cases hasUppercaseName s <;> simp
  simp [test_is_valid_product_chunk, h1, h2, hsust, hcert, hscore]

/-- A long chunk mixing sustainability boilerplate with product signals. -/
def sustainProductSample : String :=
  "sustainability designer cm zzzzzzzzzzzzzzzzzzzzzzzzzzzzzzzzzzzzzzzzzzzzzzzzzzzzzzzzzzzzzzzzzzzzzzzzzzzzzzzz"

/-- Witness for the amended C7 at a concrete long input. -/
theorem C7_amended_accepts_witness :
    ¬ sustainProductSample.length < 100 ∧
    indexTrigger sustainProductSample = false ∧
    containsSub sustainProductSample "sustainability" = true ∧
    containsSub sustainProductSample "designer" = true ∧
    containsSub sustainProductSample "cm" = true ∧
    test_is_valid_product_chunk sustainProductSample = true :=
  ⟨by decide, by decide, by decide, by decide, by decide,
   C7_amended_accepts sustainProductSample (by decide) (by decide) (by decide)
     (by decide) (by decide)⟩

/-- Unfolding lemma: the dimensions field of the metadata record. -/
theorem metadata_dims_eq (content : String) :
    (test_extract_product_metadata content).dimensions =
      (findDim content.data).map (fun p => String.mk (p.1 ++ '×' :: p.2)) := rfl

/-- Unfolding lemma: the designer field of the metadata record. -/
theorem metadata_designer_eq (content : String) :
    (test_extract_product_metadata content).designer =
      (extractDesigner content.data).map String.mk := rfl

/-- Unfolding lemma: the colors field of the metadata record. -/
theorem metadata_colors_eq (content : String) :
    (test_extract_product_metadata content).colors =
      if (findallColors content.data).isEmpty then none
      else some (((findallColors content.data).map String.mk).dedup) := rfl

/-- Any designer value produced by the designer loop has length greater
than 2: both pattern families guard the assignment with the length test. -/
theorem extractDesigner_length (l d : List Char) (h : extractDesigner l = some d) :
    2 < d.length := by
  unfold extractDesigner at h
  split at h
  · split at h
    next hlen =>
      injection h with h2
      rw [← h2]
      exact hlen
    · split at h
      · split at h
        next hlen2 =>
          injection h with h2
          rw [← h2]
          exact hlen2
        · exact absurd h (by simp)
      · exact absurd h (by simp)
  · split at h
    · split at h
      next hlen2 =>
        injection h with h2
        rw [← h2]
        exact hlen2
      · exact absurd h (by simp)
    · exact absurd h (by simp)

/-- Claim C10: the metadata record has no trivial field.  The dimensions
key is present exactly when the dimension regex matches; a present designer
always has length greater than 2; a present colors value is a nonempty
deduplicated list; and the colors key is absent exactly when no allowlisted
color matches. -/
theorem C10_no_trivial_fields (content : String) :
    ((test_extract_product_metadata content).dimensions.isSome =
      (findDim content.data).isSome) ∧
    (∀ d : String, (test_extract_product_metadata content).designer = some d →
      2 < d.length) ∧
    (∀ cs : List String, (test_extract_product_metadata content).colors = some cs →
      cs ≠ [] ∧ cs.Nodup) ∧
    ((test_extract_product_metadata content).colors = none ↔
      findallColors content.data = []) := by
  refine ⟨?_, ?_, ?_, ?_⟩
  · rw [metadata_dims_eq]
    cases findDim content.data <;> rfl
  · intro d hd
    rw [metadata_designer_eq] at hd
    cases he : extractDesigner content.data with
    | none => rw [he] at hd; simp at hd
    | some m =>
      rw [he] at hd
      simp only [Option.map_some'] at hd
      injection hd with hd2
      rw [← hd2]
      exact extractDesigner_length _ _ he
  · intro cs hcs
    rw [metadata_colors_eq] at hcs
    cases hF : findallColors content.data with
    | nil => rw [hF] at hcs; simp at hcs
    | cons a as =>
      rw [hF] at hcs
      simp only [List.isEmpty_cons, if_false, Bool.false_eq_true, List.map_cons,
        Option.some.injEq] at hcs
      rw [← hcs]
      refine ⟨?_, List.nodup_dedup _⟩
      intro hnil
      have h1 : String.mk a :: as.map String.mk = [] := (List.dedup_eq_nil _).mp hnil
      simp at h1
  · rw [metadata_colors_eq]
    cases hF : findallColors content.data with
    | nil => simp
    | cons a as => simp

/-- A small chunk producing all three metadata fields. -/
def metaSample : String := "20x20 cm by YONOH TAUPE TAUPE"

/-- Witness for C10 at a concrete input with all fields present. -/
theorem C10_no_trivial_fields_witness :
    2 < ("YONOH TAUPE TAUPE" : String).length ∧
    (["TAUPE"] : List String) ≠ [] ∧ (["TAUPE"] : List String).Nodup :=
  ⟨(C10_no_trivial_fields metaSample).2.1 "YONOH TAUPE TAUPE" (by decide),
   ((C10_no_trivial_fields metaSample).2.2.1 ["TAUPE"] (by decide)).1,
   ((C10_no_trivial_fields metaSample).2.2.1 ["TAUPE"] (by decide)).2⟩

/-! ## Claim C8: standalone rule versus embedded rule -/

/-- Modelled from the spec wording of claim C8 (for refutation): the line,
after trimming, consists entirely of one or more all-uppercase tokens of at
least 2 letters each separated by SINGLE spaces, and is at most 20
characters long.  The code regex instead allows arbitrary whitespace runs
between tokens. -/
def claimStandaloneLine (line : String) : Bool :=
  !(pyStrip line.data).isEmpty &&
  (pyStrip line.data).all (fun c => isUpperAZ c || c == ' ') &&
  isUpperAZ ((pyStrip line.data).headD ' ') &&
  isUpperAZ ((pyStrip line.data).getLastD ' ') &&
  !(listContainsB "  ".data (pyStrip line.data)) &&
  (pySplitWS (pyStrip line.data)).all (fun t => decide (2 ≤ t.length)) &&
  decide ((pyStrip line.data).length ≤ 20)

/-- Claim C8 (counterexample): in the two-line input whose first line is
FOO 1 cm and whose second line is AB CD, the only line satisfying the
claim's standalone condition is AB CD, yet the extractor returns FOO: the
embedded rule fires on the first line (candidate FOO, window containing cm)
before the standalone rule is ever tried on the second line, refuting the
claimed two-phase order. -/
theorem C8_counterexample :
    (pySplitNl "FOO 1 cm\nAB CD".data).take 10 = ["FOO 1 cm".data, "AB CD".data] ∧
    claimStandaloneLine "FOO 1 cm" = false ∧
    claimStandaloneLine "AB CD" = true ∧
    test_extract_product_name "FOO 1 cm\nAB CD" = Except.ok (some "FOO") ∧
    test_extract_product_name "FOO 1 cm\nAB CD" ≠ Except.ok (some "AB CD") := by
  refine ⟨by decide, by decide, by decide, rfl, ?_⟩
  intro h
  have h2 : (some "FOO" : Option String) = some "AB CD" :=
    Except.ok.inj (by rw [← h]; rfl)
  exact absurd h2 (by decide)

/-- Dropping twice with the same predicate drops nothing new. -/
theorem dropWhile_idem (p : Char → Bool) (l : List Char) :
    (l.dropWhile p).dropWhile p = l.dropWhile p := by
  induction l with
  | nil => rfl
  | cons a l ih =>
    by_cases h : p a
    · rw [List.dropWhile_cons_of_pos h, ih]
    · rw [List.dropWhile_cons_of_neg h, List.dropWhile_cons_of_neg h]

/-- A list unchanged by dropWhile does not begin with a character satisfying
the predicate. -/
theorem head_not_of_dropWhile_eq (p : Char → Bool) (l : List Char)
    (h : l.dropWhile p = l) (c : Char) (hc : l.head? = some c) : p c = false := by
  cases l with
  | nil => simp at hc
  | cons a l' =>
    have hac : a = c := by simpa using hc
    subst hac
    by_cases hpa : p a
    · exfalso
      rw [List.dropWhile_cons_of_pos hpa] at h
      have hlen : (l'.dropWhile p).length ≤ l'.length :=
        (List.dropWhile_sublist p).length_le
      rw [h] at hlen
      simp at hlen
    · simpa using hpa

/-- Python str.strip is idempotent. -/
theorem pyStrip_idem (l : List Char) : pyStrip (pyStrip l) = pyStrip l := by
  unfold pyStrip
  have hdropA : ((l.dropWhile pyIsSpace).dropWhile pyIsSpace) = l.dropWhile pyIsSpace :=
    dropWhile_idem pyIsSpace l
  set A := l.dropWhile pyIsSpace with hA
  set C := A.reverse.dropWhile pyIsSpace with hC
  have hCrev : C.reverse.dropWhile pyIsSpace = C.reverse := by
    cases hcr : C.reverse with
    | nil => rfl
    | cons c cr =>
      have hhead : A.head? = some c := by
        have hsplit2 : A.reverse.takeWhile pyIsSpace ++ C = A.reverse :=
          List.takeWhile_append_dropWhile pyIsSpace A.reverse
        have hAeq : A = C.reverse ++ (A.reverse.takeWhile pyIsSpace).reverse := by
          rw [← List.reverse_append, hsplit2, List.reverse_reverse]
        rw [hAeq, hcr]
        rfl
      have hpc := head_not_of_dropWhile_eq pyIsSpace A hdropA c hhead
      rw [List.dropWhile_cons_of_neg (by simp [hpc])]
  rw [hCrev, List.reverse_reverse, hC, dropWhile_idem]

/-- A line on which the embedded branch of the loop neither returns nor
raises: whenever the embedded search finds a candidate, the stripped line
is found in the line list and the context check fails, so the loop moves
to the next line. -/
def embQuiet (lines : List (List Char)) (line : List Char) : Prop :=
  ∀ g, searchUpperGroup (pyStrip line) = some g →
    ∃ j, findLineIdx lines (pyStrip line) = some j ∧ ctxHit lines j = false

/-- The loop passes over a block of lines that neither hit the standalone
rule nor fire or fail on the embedded rule. -/
theorem namePass_skip (lines : List (List Char)) (pre rest : List (List Char))
    (hpre : ∀ l ∈ pre, stdHit l = false ∧ embQuiet lines l) :
    namePass lines (pre ++ rest) = namePass lines rest := by
  induction pre with
  | nil => rfl
  | cons a pre ih =>
    have ha := hpre a (List.mem_cons_self a pre)
    have hrec : namePass lines (pre ++ rest) = namePass lines rest :=
      ih (fun l hl => hpre l (List.mem_cons_of_mem a hl))
    show namePass lines (a :: (pre ++ rest)) = namePass lines rest
    rw [namePass]
    rw [ha.1]
    simp only [Bool.false_eq_true, if_false]
    cases hg : searchUpperGroup (pyStrip a) with
    | none => exact hrec
    | some g =>
      obtain ⟨j, hj, hctx⟩ := ha.2 g hg
      rw [hj]
      dsimp only
      rw [hctx]
      simp only [Bool.false_eq_true, if_false]
      exact hrec

/-- Claim C8 (amended): the extractor scans the first 10 lines in order and
tries the standalone rule (uppercase tokens separated by whitespace runs,
trimmed line of at most 20 characters) and then the embedded rule on each
line before looking at the next line.  If every line before some scanned
line fails the standalone rule and is quiet on the embedded rule, and that
line satisfies the standalone rule, the extractor returns it trimmed. -/
theorem C8_amended_first_line (content : String) (pre post : List (List Char))
    (line : List Char)
    (hsplit : (pySplitNl content.data).take 10 = pre ++ line :: post)
    (hpre : ∀ l ∈ pre, stdHit l = false ∧ embQuiet (pySplitNl content.data) l)
    (hline : stdHit line = true) :
    test_extract_product_name content = Except.ok (some (String.mk (pyStrip line))) := by
  unfold test_extract_product_name
  rw [hsplit, namePass_skip _ _ _ hpre]
  rw [namePass, hline]
  simp only [if_true]
  rw [pyStrip_idem]

/-- Witness for the amended C8: in the input with lines zz and AB CD, the
first line is quiet and the second hits the standalone rule. -/
theorem C8_amended_first_line_witness :
    test_extract_product_name "zz\nAB CD" = Except.ok (some "AB CD") := by
  have hpre : ∀ l ∈ [("zz".data : List Char)],
      stdHit l = false ∧ embQuiet (pySplitNl ("zz\nAB CD" : String).data) l := by
    intro l hl
    have hl2 : l = "zz".data := by simpa using hl
    subst hl2
    constructor
    · decide
    · intro g hg
      rw [show searchUpperGroup (pyStrip "zz".data) = none from by decide] at hg
      exact Option.noConfusion hg
  have h := C8_amended_first_line "zz\nAB CD" ["zz".data] [] "AB CD".data
    (by decide) hpre (by decide)
  rwa [show String.mk (pyStrip "AB CD".data) = "AB CD" from by decide] at h
